import Mathlib

/-!
Shallow embedding of the shopping-list manager (src/ShoppingList.py, with
src/Product.py a near-duplicate leaf variant of the same Product class).

Modelling conventions:
* Python `float` prices are modelled as `ℚ`; Python `int` quantities as `ℤ`.
* `datetime.datetime.now()` is modelled by passing the current wall-clock
  value as an explicit `now : Nat` argument to `mark_product_as_bought`;
  wall-clock monotonicity is a hypothesis where a claim needs it.
* A raised exception is modelled by returning the pre-raise state paired
  with `some error`: each mutating operation has type
  `ShoppingList → args → ShoppingList × Option PyError`.  Returning the
  input state in the error case is faithful because every operation raises
  only before performing any mutation.
* `input()` is modelled by an explicit console-line stream `stdin : List
  String` consumed front-to-back; an exhausted stream is Python's
  `EOFError`.
* Python object identity: `list.remove(product)` removes by `==`, which for
  these `Product` objects (no `__eq__`) is identity; the loop in
  `remove_product` finds the first name match, and every earlier element has
  a different name, so removal of the first name match is the faithful
  value-level translation.
-/

namespace ShoppingListApp

/-- One product record: the `Product` class of src/ShoppingList.py lines
228-278 (fields set in `__init__`). -/
structure Product where
  name : String
  quantity : Int
  category : String
  price : ℚ
  notes : String := ""
  bought : Bool := false
deriving Repr, DecidableEq

/-- `Product.mark_as_bought` (src/ShoppingList.py line 258): sets `bought = True`. -/
def Product.mark_as_bought (p : Product) : Product :=
  { p with bought := true }

/-- `Product.edit` (src/ShoppingList.py lines 262-278): sparse update of
quantity, price, notes, category; a `None` (here `none`) argument leaves the
field untouched. -/
def Product.edit (p : Product) (quantity : Option Int) (price : Option ℚ)
    (notes : Option String) (category : Option String) : Product :=
  let p := match quantity with
    | some q => { p with quantity := q }
    | none => p
  let p := match price with
    | some pr => { p with price := pr }
    | none => p
  let p := match notes with
    | some no => { p with notes := no }
    | none => p
  match category with
  | some ca => { p with category := ca }
  | none => p

/-- `Product.edit` of the leaf variant src/Product.py lines 17-23: same
sparse update but with no `category` parameter. -/
def Product.editPy (p : Product) (quantity : Option Int) (price : Option ℚ)
    (notes : Option String) : Product :=
  let p := match quantity with
    | some q => { p with quantity := q }
    | none => p
  let p := match price with
    | some pr => { p with price := pr }
    | none => p
  match notes with
  | some no => { p with notes := no }
  | none => p

/-- The exceptions the modelled operations can raise:
`ProductNotFoundError` (src/ShoppingList.py line 5), `ValueError` from the
unknown-criterion branch of `filter_products` (line 147) or a failed
numeric coercion, and `EOFError` from `input()` on an exhausted stream. -/
inductive PyError where
  | productNotFound (name : String)
  | valueError (msg : String)
  | eofError
deriving Repr, DecidableEq

/-- The `ShoppingList` class state (src/ShoppingList.py lines 46-49):
a product list and a history of (snapshot, timestamp) pairs. -/
structure ShoppingList where
  products : List Product
  history : List (Product × Nat)
deriving Repr, DecidableEq

/-- `ShoppingList.__init__`: empty products and history. -/
def ShoppingList.init : ShoppingList :=
  ⟨[], []⟩

/-- `ShoppingList.add_product` (lines 51-57): append to `products`. -/
def ShoppingList.add_product (l : ShoppingList) (p : Product) : ShoppingList :=
  { l with products := l.products ++ [p] }

/-- The loop of `remove_product` (lines 68-71): drop the first record whose
name matches, `none` when no record matches. -/
def removeFirst (n : String) : List Product → Option (List Product)
  | [] => none
  | p :: ps =>
    if p.name = n then some ps
    else (removeFirst n ps).map (fun r => p :: r)

/-- `ShoppingList.remove_product` (lines 59-72): remove the first name
match from `products`; raise `ProductNotFoundError` when there is none. -/
def ShoppingList.remove_product (l : ShoppingList) (n : String) :
    ShoppingList × Option PyError :=
  match removeFirst n l.products with
  | some ps => ({ l with products := ps }, none)
  | none => (l, some (.productNotFound n))

/-- The loop of `edit_product` (lines 87-90): apply `Product.edit` to the
first record whose name matches, `none` when no record matches. -/
def editFirst (n : String) (q : Option Int) (pr : Option ℚ)
    (no ca : Option String) : List Product → Option (List Product)
  | [] => none
  | p :: ps =>
    if p.name = n then some (p.edit q pr no ca :: ps)
    else (editFirst n q pr no ca ps).map (fun r => p :: r)

/-- `ShoppingList.edit_product` (lines 74-91): sparse-edit the first name
match; raise `ProductNotFoundError` when there is none. -/
def ShoppingList.edit_product (l : ShoppingList) (n : String) (q : Option Int)
    (pr : Option ℚ) (no ca : Option String) : ShoppingList × Option PyError :=
  match editFirst n q pr no ca l.products with
  | some ps => ({ l with products := ps }, none)
  | none => (l, some (.productNotFound n))

/-- The loop of `mark_product_as_bought` (lines 102-108): mark the first
name match in place and return the snapshot `Product(name, quantity,
category, price, notes, True)` built from the just-marked record. -/
def markFirst (n : String) : List Product → Option (List Product × Product)
  | [] => none
  | p :: ps =>
    if p.name = n then
      let p2 := p.mark_as_bought
      some (p2 :: ps, ⟨p2.name, p2.quantity, p2.category, p2.price, p2.notes, true⟩)
    else (markFirst n ps).map (fun r => (p :: r.1, r.2))

/-- `ShoppingList.mark_product_as_bought` (lines 93-109): mark the first
name match, append `(snapshot, now)` to `history`; raise
`ProductNotFoundError` when no record matches. -/
def ShoppingList.mark_product_as_bought (l : ShoppingList) (n : String)
    (now : Nat) : ShoppingList × Option PyError :=
  match markFirst n l.products with
  | some r => ({ products := r.1, history := l.history ++ [(r.2, now)] }, none)
  | none => (l, some (.productNotFound n))

/-- Value of a decimal digit character. -/
def digitVal? (c : Char) : Option Nat :=
  if c.isDigit then some (c.toNat - 48) else none

/-- Natural number denoted by a nonempty string of decimal digits. -/
def decDigits? (cs : List Char) : Option Nat :=
  match cs with
  | [] => none
  | _ => cs.foldl
      (fun acc c =>
        match acc, digitVal? c with
        | some a, some d => some (a * 10 + d)
        | _, _ => none)
      (some 0)

/-- Python `float(s)` on the plain decimal numerals this program's console
dialogue uses (optional minus sign, digits, optional fraction part);
`none` models the `ValueError` raised on anything else. -/
def pyFloat? (s : String) : Option ℚ :=
  let neg := s.startsWith "-"
  let body := if neg then s.drop 1 else s
  let val? : Option ℚ :=
    match body.splitOn "." with
    | [ip] => (decDigits? ip.data).map (fun v => (v : ℚ))
    | [ip, fp] =>
      match decDigits? ip.data, decDigits? fp.data with
      | some v, some f => some ((v : ℚ) + (f : ℚ) / (10 : ℚ) ^ fp.length)
      | _, _ => none
    | _ => none
  val?.map (fun v => if neg then -v else v)

/-- Python `int(s)` on an optionally signed decimal numeral; `none` models
the `ValueError` raised on anything else. -/
def pyInt? (s : String) : Option Int :=
  let neg := s.startsWith "-"
  let body := if neg then s.drop 1 else s
  (decDigits? body.data).map (fun v => if neg then -(v : Int) else (v : Int))

/-- Python's `needle in hay` substring test on strings. -/
def strContains (hay needle : String) : Bool :=
  decide (needle.data <:+: hay.data)

/-- `ShoppingList.filter_products` (lines 116-147).  The two bought-flag
criteria use no console input; the four others read their parameters with
`input()` inside the method, modelled by consuming the `stdin` stream.
The method never assigns to `self`, so the returned state is the input
state. -/
def ShoppingList.filter_products (l : ShoppingList) (criterion : String)
    (stdin : List String) : ShoppingList × Except PyError (List Product) :=
  (l,
    if criterion = "bought" then
      .ok (l.products.filter fun p => p.bought)
    else if criterion = "not bought" then
      .ok (l.products.filter fun p => !p.bought)
    else if criterion = "category" then
      match stdin with
      | [] => .error .eofError
      | category :: _ => .ok (l.products.filter fun p => p.category == category)
    else if criterion = "price range" then
      match stdin with
      | a :: b :: _ =>
        match pyFloat? a, pyFloat? b with
        | some mn, some mx =>
          .ok (l.products.filter fun p =>
            decide (mn ≤ p.price) && decide (p.price ≤ mx))
        | _, _ => .error (.valueError "could not convert string to float")
      | _ => .error .eofError
    else if criterion = "quantity" then
      match stdin with
      | a :: b :: _ =>
        match pyInt? a, pyInt? b with
        | some mn, some mx =>
          .ok (l.products.filter fun p =>
            decide (mn ≤ p.quantity) && decide (p.quantity ≤ mx))
        | _, _ => .error (.valueError "invalid literal for int")
      | _ => .error .eofError
    else if criterion = "notes" then
      match stdin with
      | [] => .error .eofError
      | kw :: _ =>
        .ok (l.products.filter fun p => strContains p.notes.toLower kw.toLower)
    else .error (.valueError ("Unknown filter criterion: " ++ criterion)))

/-- The statistics dictionary returned by `generate_statistics`. -/
structure Stats where
  total_spent : ℚ
  average_spent : ℚ
  most_frequent_product : Option String
deriving Repr, DecidableEq

/-- The `product_counts` dict built by `generate_statistics` (lines
163-168): an insertion-ordered association list from names to purchase
counts, as a Python dict preserves insertion order. -/
def productCounts (history : List (Product × Nat)) : List (String × Nat) :=
  history.foldl
    (fun counts e =>
      if counts.any (fun kv => kv.1 == e.1.name) then
        counts.map (fun kv => if kv.1 == e.1.name then (kv.1, kv.2 + 1) else kv)
      else counts ++ [(e.1.name, 1)])
    []

/-- Python `max(product_counts, key=product_counts.get)` over an
insertion-ordered dict: the first key attaining the maximal count (Python's
`max` replaces the running best only on a strictly greater value); `none`
models the guard `if product_counts else None` (line 170). -/
def pyMaxByCount (counts : List (String × Nat)) : Option String :=
  match counts with
  | [] => none
  | c :: cs => some ((cs.foldl (fun best kv => if kv.2 > best.2 then kv else best) c).1)

/-- `ShoppingList.generate_statistics` (lines 154-177). -/
def ShoppingList.generate_statistics (l : ShoppingList) : Stats :=
  let total_spent :=
    ((l.products.filter fun p => p.bought).map
      (fun p => p.price * (p.quantity : ℚ))).sum
  let average_spent :=
    if l.products.isEmpty then 0 else total_spent / (l.products.length : ℚ)
  ⟨total_spent, average_spent, pyMaxByCount (productCounts l.history)⟩

/-- The JSON object `product.__dict__` written for one record by
`write_to_file` (line 185): all six fields. -/
structure ProductDict where
  name : String
  quantity : Int
  category : String
  price : ℚ
  notes : String
  bought : Bool
deriving Repr, DecidableEq

/-- `product.__dict__`. -/
def Product.toDict (p : Product) : ProductDict :=
  ⟨p.name, p.quantity, p.category, p.price, p.notes, p.bought⟩

/-- `Product(**item)` (line 197): rebuild a record from a parsed JSON
object. -/
def Product.ofDict (d : ProductDict) : Product :=
  ⟨d.name, d.quantity, d.category, d.price, d.notes, d.bought⟩

/-- `ShoppingList.write_to_file` (lines 179-186): the JSON array written,
one `__dict__` object per record in current order. -/
def ShoppingList.write_to_file (l : ShoppingList) : List ProductDict :=
  l.products.map Product.toDict

/-- `ShoppingList.read_from_file` (lines 188-200) on a file that exists and
parses: replace `products` with the records rebuilt from the array. -/
def ShoppingList.read_from_file (l : ShoppingList) (data : List ProductDict) :
    ShoppingList :=
  { l with products := data.map Product.ofDict }

end ShoppingListApp

namespace ShoppingListApp

/-! ### Helper lemmas about the first-match loops -/

theorem removeFirst_eq_none_iff (n : String) (ps : List Product) :
    removeFirst n ps = none ↔ ∀ p ∈ ps, p.name ≠ n := by
  induction ps with
  | nil => simp [removeFirst]
  | cons q qs ih =>
    by_cases hq : q.name = n <;> simp [removeFirst, hq, ih]

theorem editFirst_eq_none_iff (n : String) (q : Option Int) (pr : Option ℚ)
    (no ca : Option String) (ps : List Product) :
    editFirst n q pr no ca ps = none ↔ ∀ p ∈ ps, p.name ≠ n := by
  induction ps with
  | nil => simp [editFirst]
  | cons x xs ih =>
    by_cases hx : x.name = n <;> simp [editFirst, hx, ih]

theorem markFirst_eq_none_iff (n : String) (ps : List Product) :
    markFirst n ps = none ↔ ∀ p ∈ ps, p.name ≠ n := by
  induction ps with
  | nil => simp [markFirst]
  | cons x xs ih =>
    by_cases hx : x.name = n <;> simp [markFirst, hx, ih]

theorem removeFirst_append (n : String) {xs : List Product}
    (hxs : ∀ x ∈ xs, x.name ≠ n) (rest : List Product) :
    removeFirst n (xs ++ rest) = (removeFirst n rest).map (fun r => xs ++ r) := by
  induction xs with
  | nil => simp
  | cons x l ih =>
    have hx : x.name ≠ n := hxs x (by simp)
    have ih2 := ih (fun y hy => hxs y (by simp [hy]))
    simp [removeFirst, hx, ih2, Option.map_map]
    rfl

theorem editFirst_append (n : String) (q : Option Int) (pr : Option ℚ)
    (no ca : Option String) {xs : List Product}
    (hxs : ∀ x ∈ xs, x.name ≠ n) (rest : List Product) :
    editFirst n q pr no ca (xs ++ rest)
      = (editFirst n q pr no ca rest).map (fun r => xs ++ r) := by
  induction xs with
  | nil => simp
  | cons x l ih =>
    have hx : x.name ≠ n := hxs x (by simp)
    have ih2 := ih (fun y hy => hxs y (by simp [hy]))
    simp [editFirst, hx, ih2, Option.map_map]
    rfl

theorem markFirst_append (n : String) {xs : List Product}
    (hxs : ∀ x ∈ xs, x.name ≠ n) (rest : List Product) :
    markFirst n (xs ++ rest)
      = (markFirst n rest).map (fun r => (xs ++ r.1, r.2)) := by
  induction xs with
  | nil => simp
  | cons x l ih =>
    have hx : x.name ≠ n := hxs x (by simp)
    have ih2 := ih (fun y hy => hxs y (by simp [hy]))
    simp [markFirst, hx, ih2, Option.map_map]
    rfl

theorem removeFirst_cons_match {n : String} {A : Product} (hA : A.name = n)
    (ys : List Product) : removeFirst n (A :: ys) = some ys := by
  simp [removeFirst, hA]

theorem editFirst_cons_match {n : String} {A : Product} (hA : A.name = n)
    (q : Option Int) (pr : Option ℚ) (no ca : Option String) (ys : List Product) :
    editFirst n q pr no ca (A :: ys) = some (A.edit q pr no ca :: ys) := by
  simp [editFirst, hA]

theorem markFirst_cons_match {n : String} {A : Product} (hA : A.name = n)
    (ys : List Product) :
    markFirst n (A :: ys)
      = some ({ A with bought := true } :: ys, { A with bought := true }) := by
  simp [markFirst, hA, Product.mark_as_bought]

theorem find_name_append {n : String} {xs : List Product}
    (hxs : ∀ x ∈ xs, x.name ≠ n) (rest : List Product) :
    (xs ++ rest).find? (fun r => r.name == n) = rest.find? (fun r => r.name == n) := by
  induction xs with
  | nil => simp
  | cons x l ih =>
    have hx : x.name ≠ n := hxs x (by simp)
    have ih2 := ih (fun y hy => hxs y (by simp [hy]))
    simp [List.find?, beq_eq_false_iff_ne.mpr hx, ih2]

theorem find_name_cons_match {n : String} {A : Product} (hA : A.name = n)
    (ys : List Product) :
    (A :: ys).find? (fun r => r.name == n) = some A := by
  simp [List.find?, hA]

/-- A successful `find?` on the name splits the list at the first match. -/
theorem find_name_decomp {n : String} {ps : List Product} {p : Product}
    (h : ps.find? (fun r => r.name == n) = some p) :
    ∃ xs ys, ps = xs ++ p :: ys ∧ (∀ x ∈ xs, x.name ≠ n) ∧ p.name = n := by
  induction ps with
  | nil => simp [List.find?] at h
  | cons q qs ih =>
    by_cases hq : q.name = n
    · rw [find_name_cons_match hq] at h
      obtain rfl : q = p := by injection h
      exact ⟨[], qs, rfl, by simp, hq⟩
    · rw [show ((q :: qs).find? (fun r => r.name == n))
          = qs.find? (fun r => r.name == n) from by
            simp [List.find?, beq_eq_false_iff_ne.mpr hq]] at h
      obtain ⟨xs, ys, hsplit, hxs, hp⟩ := ih h
      exact ⟨q :: xs, ys, by simp [hsplit], by
        intro x hx
        rcases List.mem_cons.mp hx with rfl | hx
        · exact hq
        · exact hxs x hx, hp⟩

end ShoppingListApp

namespace ShoppingListApp

/-! ### Derived facts about the store operations -/

theorem edit_name (p : Product) (q : Option Int) (pr : Option ℚ)
    (no ca : Option String) : (p.edit q pr no ca).name = p.name := by
  cases q <;> cases pr <;> cases no <;> cases ca <;> rfl

theorem edit_bought (p : Product) (q : Option Int) (pr : Option ℚ)
    (no ca : Option String) : (p.edit q pr no ca).bought = p.bought := by
  cases q <;> cases pr <;> cases no <;> cases ca <;> rfl

theorem editFirst_map_name_bought (n : String) (q : Option Int) (pr : Option ℚ)
    (no ca : Option String) :
    ∀ ps ps', editFirst n q pr no ca ps = some ps' →
      ps'.map (fun r => (r.name, r.bought)) = ps.map (fun r => (r.name, r.bought)) := by
  intro ps
  induction ps with
  | nil => intro ps' h; simp [editFirst] at h
  | cons x xs ih =>
    intro ps' h
    by_cases hx : x.name = n
    · rw [editFirst_cons_match hx] at h
      obtain rfl : x.edit q pr no ca :: xs = ps' := by injection h
      simp [edit_name, edit_bought]
    · simp only [editFirst, hx, if_false, Option.map_eq_some'] at h
      obtain ⟨r, hr, rfl⟩ := h
      simp [ih r hr]

theorem edit_product_fst_history (l : ShoppingList) (n : String) (q : Option Int)
    (pr : Option ℚ) (no ca : Option String) :
    ((l.edit_product n q pr no ca).1).history = l.history := by
  unfold ShoppingList.edit_product
  cases h : editFirst n q pr no ca l.products <;> simp

theorem remove_product_fst_history (l : ShoppingList) (n : String) :
    ((l.remove_product n).1).history = l.history := by
  unfold ShoppingList.remove_product
  cases h : removeFirst n l.products <;> simp

theorem editFirst_none_args {n : String} {ps : List Product}
    (h : ∃ r ∈ ps, r.name = n) : editFirst n none none none none ps = some ps := by
  induction ps with
  | nil => simp at h
  | cons x xs ih =>
    by_cases hx : x.name = n
    · rw [editFirst_cons_match hx]
      rfl
    · obtain ⟨r, hr, hrn⟩ := h
      rcases List.mem_cons.mp hr with rfl | hr
      · exact absurd hrn hx
      · simp [editFirst, hx, ih ⟨r, hr, hrn⟩]

/-- Unpacking a successful `mark_product_as_bought` through the first name
match: the live record is marked in place and the snapshot appended. -/
theorem mark_of_find {l : ShoppingList} {n : String} {p : Product} (now : Nat)
    (hfind : l.products.find? (fun r => r.name == n) = some p) :
    ∃ xs ys, l.products = xs ++ p :: ys ∧ (∀ x ∈ xs, x.name ≠ n) ∧ p.name = n ∧
      l.mark_product_as_bought n now =
        (⟨xs ++ { p with bought := true } :: ys,
          l.history ++ [({ p with bought := true }, now)]⟩, none) := by
  obtain ⟨xs, ys, hsplit, hxs, hp⟩ := find_name_decomp hfind
  refine ⟨xs, ys, hsplit, hxs, hp, ?_⟩
  unfold ShoppingList.mark_product_as_bought
  rw [hsplit, markFirst_append n hxs, markFirst_cons_match hp]
  rfl

end ShoppingListApp

namespace ShoppingListApp

/-! ### Sample data for the concrete witnesses -/

/-- Concrete record used by the witnesses. -/
def pMilk : Product := ⟨"Milk", 2, "Dairy", 3, "Organic", false⟩

/-- Concrete record used by the witnesses. -/
def pBread : Product := ⟨"Bread", 1, "Bakery", 2, "Whole grain", false⟩

/-! ### Claim theorems -/

/-- C3: a name with no matching record makes `remove_product`,
`edit_product` and `mark_product_as_bought` all fail with
`ProductNotFoundError` while returning the store exactly as it was
(products and history unchanged); a name with a matching record makes none
of them raise. -/
theorem product_not_found_atomicity (l : ShoppingList) (n : String) (now : Nat)
    (q : Option Int) (pr : Option ℚ) (no ca : Option String) :
    ((∀ p ∈ l.products, p.name ≠ n) →
      l.remove_product n = (l, some (.productNotFound n)) ∧
      l.edit_product n q pr no ca = (l, some (.productNotFound n)) ∧
      l.mark_product_as_bought n now = (l, some (.productNotFound n))) ∧
    ((∃ p ∈ l.products, p.name = n) →
      (l.remove_product n).2 = none ∧
      (l.edit_product n q pr no ca).2 = none ∧
      (l.mark_product_as_bought n now).2 = none) := by
  constructor
  · intro hall
    refine ⟨?_, ?_, ?_⟩
    · unfold ShoppingList.remove_product
      rw [(removeFirst_eq_none_iff n l.products).mpr hall]
    · unfold ShoppingList.edit_product
      rw [(editFirst_eq_none_iff n q pr no ca l.products).mpr hall]
    · unfold ShoppingList.mark_product_as_bought
      rw [(markFirst_eq_none_iff n l.products).mpr hall]
  · intro hex
    have hne : ¬ ∀ p ∈ l.products, p.name ≠ n := by
      obtain ⟨p, hp, hpn⟩ := hex
      exact fun hall => hall p hp hpn
    refine ⟨?_, ?_, ?_⟩
    · unfold ShoppingList.remove_product
      cases h : removeFirst n l.products with
      | none => exact absurd ((removeFirst_eq_none_iff n l.products).mp h) hne
      | some ps => simp
    · unfold ShoppingList.edit_product
      cases h : editFirst n q pr no ca l.products with
      | none => exact absurd ((editFirst_eq_none_iff n q pr no ca l.products).mp h) hne
      | some ps => simp
    · unfold ShoppingList.mark_product_as_bought
      cases h : markFirst n l.products with
      | none => exact absurd ((markFirst_eq_none_iff n l.products).mp h) hne
      | some r => simp

/-- Witness for C3 at a concrete store: the miss raises and leaves the
store intact, the hit does not raise. -/
theorem product_not_found_atomicity_witness :
    (ShoppingList.remove_product ⟨[pMilk], []⟩ "Nope"
      = (⟨[pMilk], []⟩, some (.productNotFound "Nope"))) ∧
    (ShoppingList.remove_product ⟨[pMilk], []⟩ "Milk").2 = none := by
  constructor
  · exact ((product_not_found_atomicity ⟨[pMilk], []⟩ "Nope" 0 none none none none).1
      (by decide)).1
  · exact ((product_not_found_atomicity ⟨[pMilk], []⟩ "Milk" 0 none none none none).2
      ⟨pMilk, by simp, rfl⟩).1

/-- C4: `Product.edit` is a sparse update — each supplied parameter
overwrites exactly its field, each omitted parameter leaves its field
untouched, an edit with everything omitted is the identity, and
`edit_product` with everything omitted on an existing name returns the
store unchanged with no error. -/
theorem edit_sparse_update (p : Product) (q : Option Int) (pr : Option ℚ)
    (no ca : Option String) :
    (p.edit q pr no ca).quantity = q.getD p.quantity ∧
    (p.edit q pr no ca).price = pr.getD p.price ∧
    (p.edit q pr no ca).notes = no.getD p.notes ∧
    (p.edit q pr no ca).category = ca.getD p.category ∧
    p.edit none none none none = p ∧
    (∀ l : ShoppingList, ∀ n : String, (∃ r ∈ l.products, r.name = n) →
      l.edit_product n none none none none = (l, none)) := by
  refine ⟨?_, ?_, ?_, ?_, rfl, ?_⟩
  · cases q <;> cases pr <;> cases no <;> cases ca <;> rfl
  · cases q <;> cases pr <;> cases no <;> cases ca <;> rfl
  · cases q <;> cases pr <;> cases no <;> cases ca <;> rfl
  · cases q <;> cases pr <;> cases no <;> cases ca <;> rfl
  · intro l n hex
    unfold ShoppingList.edit_product
    rw [editFirst_none_args hex]

/-- Witness for C4: an all-omitted edit of an existing record is a no-op
call on a concrete store. -/
theorem edit_sparse_update_witness :
    ShoppingList.edit_product ⟨[pMilk], []⟩ "Milk" none none none none
      = (⟨[pMilk], []⟩, none) :=
  (edit_sparse_update pMilk none none none none).2.2.2.2.2
    ⟨[pMilk], []⟩ "Milk" ⟨pMilk, by simp, rfl⟩

/-- C10: an edit never touches a record's `name` or `bought` flag — at the
record level and across the whole store (positionally) — and
`edit_product` never modifies `history`. -/
theorem edit_preserves_identity (p : Product) (q : Option Int) (pr : Option ℚ)
    (no ca : Option String) (l : ShoppingList) (n : String) :
    (p.edit q pr no ca).name = p.name ∧
    (p.edit q pr no ca).bought = p.bought ∧
    ((l.edit_product n q pr no ca).1).history = l.history ∧
    ((l.edit_product n q pr no ca).1).products.map (fun r => (r.name, r.bought))
      = l.products.map (fun r => (r.name, r.bought)) := by
  refine ⟨edit_name p q pr no ca, edit_bought p q pr no ca,
    edit_product_fst_history l n q pr no ca, ?_⟩
  unfold ShoppingList.edit_product
  cases h : editFirst n q pr no ca l.products with
  | none => simp
  | some ps => simpa using editFirst_map_name_bought n q pr no ca l.products ps h

end ShoppingListApp

namespace ShoppingListApp

/-- C2: on a store whose first name match is `p`, `mark_product_as_bought`
succeeds, the first match now carries `bought = true`, history grows by
exactly the snapshot entry `({ p with bought := true }, now)` appended at
the end, append-order timestamp monotonicity is preserved when the wall
clock is monotone, and a second call on the (now already bought) product
appends one further entry. -/
theorem mark_product_as_bought_spec (l : ShoppingList) (n : String) (now : Nat)
    (p : Product) (hfind : l.products.find? (fun r => r.name == n) = some p)
    (hclock : ∀ t ∈ l.history.map Prod.snd, t ≤ now) :
    ∃ l1, l.mark_product_as_bought n now = (l1, none) ∧
      l1.products.find? (fun r => r.name == n) = some { p with bought := true } ∧
      l1.history = l.history ++ [({ p with bought := true }, now)] ∧
      l1.history.length = l.history.length + 1 ∧
      (List.Chain' (· ≤ ·) (l.history.map Prod.snd) →
        List.Chain' (· ≤ ·) (l1.history.map Prod.snd)) ∧
      (∀ now2, ∃ l2, l1.mark_product_as_bought n now2 = (l2, none) ∧
        l2.history.length = l.history.length + 2) := by
  obtain ⟨xs, ys, hsplit, hxs, hpn, hmark⟩ := mark_of_find now hfind
  refine ⟨_, hmark, ?_, rfl, by simp, ?_, ?_⟩
  · rw [find_name_append hxs, find_name_cons_match (show Product.name { p with bought := true } = n from hpn)]
  · intro hchain
    simp only [List.map_append]
    exact hchain.append (by simp) (by
      intro x hx y hy
      simp only [List.map_cons, List.map_nil, List.head?_cons] at hy
      obtain rfl : now = y := by injection hy
      obtain ⟨hne, rfl⟩ := List.mem_getLast?_eq_getLast hx
      exact hclock _ (List.getLast_mem hne))
  · intro now2
    have hfind1 : (xs ++ { p with bought := true } :: ys).find?
        (fun r => r.name == n) = some { p with bought := true } := by
      rw [find_name_append hxs,
        find_name_cons_match (show Product.name { p with bought := true } = n from hpn)]
    obtain ⟨xs2, ys2, _, _, _, hmark2⟩ :=
      mark_of_find (l := ⟨xs ++ { p with bought := true } :: ys,
        l.history ++ [({ p with bought := true }, now)]⟩) now2 hfind1
    exact ⟨_, hmark2, by simp⟩

/-- Witness for C2 at a concrete one-product store. -/
theorem mark_product_as_bought_spec_witness :
    ∃ l1, ShoppingList.mark_product_as_bought ⟨[pMilk], []⟩ "Milk" 7 = (l1, none) ∧
      l1.products.find? (fun r => r.name == "Milk") = some { pMilk with bought := true } ∧
      l1.history = ([] : List (Product × Nat)) ++ [({ pMilk with bought := true }, 7)] ∧
      l1.history.length = List.length ([] : List (Product × Nat)) + 1 ∧
      (List.Chain' (· ≤ ·) (List.map Prod.snd ([] : List (Product × Nat))) →
        List.Chain' (· ≤ ·) (l1.history.map Prod.snd)) ∧
      (∀ now2, ∃ l2, l1.mark_product_as_bought "Milk" now2 = (l2, none) ∧
        l2.history.length = List.length ([] : List (Product × Nat)) + 2) :=
  mark_product_as_bought_spec ⟨[pMilk], []⟩ "Milk" 7 pMilk (by decide) (by decide)

/-- C1: marking a product appends a snapshot entry carrying the pre-edit
field values (in particular the pre-edit price of the first match `p`),
and neither a subsequent `edit_product` on that name (e.g. a price change)
nor a subsequent `remove_product` changes any history entry: the whole
history, snapshot fields and timestamps included, stays exactly the
appended one. -/
theorem snapshot_independence (l : ShoppingList) (n : String) (now : Nat)
    (p : Product) (hfind : l.products.find? (fun r => r.name == n) = some p) :
    ∃ l1, l.mark_product_as_bought n now = (l1, none) ∧
      l1.history = l.history ++ [({ p with bought := true }, now)] ∧
      (∀ q pr no ca, ((l1.edit_product n q pr no ca).1).history
        = l.history ++ [({ p with bought := true }, now)]) ∧
      ((l1.remove_product n).1).history
        = l.history ++ [({ p with bought := true }, now)] := by
  obtain ⟨xs, ys, hsplit, hxs, hpn, hmark⟩ := mark_of_find now hfind
  refine ⟨_, hmark, rfl, ?_, ?_⟩
  · intro q pr no ca
    rw [edit_product_fst_history]
  · rw [remove_product_fst_history]

/-- Witness for C1: mark "Milk" bought, then edit its price; the history
snapshot still shows the original price. -/
theorem snapshot_independence_witness :
    ∃ l1, ShoppingList.mark_product_as_bought ⟨[pMilk], []⟩ "Milk" 7 = (l1, none) ∧
      l1.history = ([] : List (Product × Nat)) ++ [({ pMilk with bought := true }, 7)] ∧
      (∀ q pr no ca, ((l1.edit_product "Milk" q pr no ca).1).history
        = ([] : List (Product × Nat)) ++ [({ pMilk with bought := true }, 7)]) ∧
      ((l1.remove_product "Milk").1).history
        = ([] : List (Product × Nat)) ++ [({ pMilk with bought := true }, 7)] :=
  snapshot_independence ⟨[pMilk], []⟩ "Milk" 7 pMilk (by decide)

end ShoppingListApp

namespace ShoppingListApp

/-- Concrete later duplicate of "Milk" used by the C9 witness. -/
def pMilk2 : Product := ⟨"Milk", 5, "Dairy", 4, "", false⟩

/-- C9: with two records of the same name in insertion order,
`remove_product` deletes only the earliest-inserted one; the later
duplicate stays and becomes the first match, so subsequent
`remove_product`, `edit_product` and `mark_product_as_bought` calls on
that name all operate on it. -/
theorem remove_shadow_duplicate (xs zs ws : List Product) (A B : Product)
    (n : String) (hist : List (Product × Nat)) (now : Nat) (q : Option Int)
    (pr : Option ℚ) (no ca : Option String)
    (hxs : ∀ x ∈ xs, x.name ≠ n) (hA : A.name = n)
    (hzs : ∀ z ∈ zs, z.name ≠ n) (hB : B.name = n) :
    ShoppingList.remove_product ⟨xs ++ A :: (zs ++ B :: ws), hist⟩ n
      = (⟨xs ++ (zs ++ B :: ws), hist⟩, none) ∧
    (xs ++ (zs ++ B :: ws)).find? (fun r => r.name == n) = some B ∧
    (ShoppingList.remove_product ⟨xs ++ (zs ++ B :: ws), hist⟩ n).1.products
      = xs ++ (zs ++ ws) ∧
    (ShoppingList.edit_product ⟨xs ++ (zs ++ B :: ws), hist⟩ n q pr no ca).1.products
      = xs ++ (zs ++ B.edit q pr no ca :: ws) ∧
    ShoppingList.mark_product_as_bought ⟨xs ++ (zs ++ B :: ws), hist⟩ n now
      = (⟨xs ++ (zs ++ { B with bought := true } :: ws),
          hist ++ [({ B with bought := true }, now)]⟩, none) := by
  refine ⟨?_, ?_, ?_, ?_, ?_⟩
  · unfold ShoppingList.remove_product
    rw [show removeFirst n (xs ++ A :: (zs ++ B :: ws)) = some (xs ++ (zs ++ B :: ws)) from by
      rw [removeFirst_append n hxs, removeFirst_cons_match hA]; rfl]
  · rw [find_name_append hxs, find_name_append hzs, find_name_cons_match hB]
  · unfold ShoppingList.remove_product
    rw [show removeFirst n (xs ++ (zs ++ B :: ws)) = some (xs ++ (zs ++ ws)) from by
      rw [removeFirst_append n hxs, removeFirst_append n hzs, removeFirst_cons_match hB]; rfl]
  · unfold ShoppingList.edit_product
    rw [show editFirst n q pr no ca (xs ++ (zs ++ B :: ws))
        = some (xs ++ (zs ++ B.edit q pr no ca :: ws)) from by
      rw [editFirst_append n q pr no ca hxs, editFirst_append n q pr no ca hzs,
        editFirst_cons_match hB]; rfl]
  · unfold ShoppingList.mark_product_as_bought
    rw [show markFirst n (xs ++ (zs ++ B :: ws))
        = some (xs ++ (zs ++ { B with bought := true } :: ws), { B with bought := true }) from by
      rw [markFirst_append n hxs, markFirst_append n hzs, markFirst_cons_match hB]; rfl]

/-- Witness for C9 on a concrete store holding two "Milk" records. -/
theorem remove_shadow_duplicate_witness :
    ShoppingList.remove_product ⟨[pBread] ++ pMilk :: ([] ++ pMilk2 :: []), []⟩ "Milk"
      = (⟨[pBread] ++ ([] ++ pMilk2 :: []), []⟩, none) ∧
    ([pBread] ++ ([] ++ pMilk2 :: [])).find? (fun r => r.name == "Milk") = some pMilk2 ∧
    (ShoppingList.remove_product ⟨[pBread] ++ ([] ++ pMilk2 :: []), []⟩ "Milk").1.products
      = [pBread] ++ ([] ++ []) ∧
    (ShoppingList.edit_product ⟨[pBread] ++ ([] ++ pMilk2 :: []), []⟩ "Milk"
        (some 9) none none none).1.products
      = [pBread] ++ ([] ++ pMilk2.edit (some 9) none none none :: []) ∧
    ShoppingList.mark_product_as_bought ⟨[pBread] ++ ([] ++ pMilk2 :: []), []⟩ "Milk" 4
      = (⟨[pBread] ++ ([] ++ { pMilk2 with bought := true } :: []),
          [] ++ [({ pMilk2 with bought := true }, 4)]⟩, none) :=
  remove_shadow_duplicate [pBread] [] [] pMilk pMilk2 "Milk" [] 4 (some 9) none none none
    (by decide) (by decide) (by decide) (by decide)

end ShoppingListApp

namespace ShoppingListApp

/-- C5: contrary to the spec, `filter_products` DOES read interactive
input during the call for the criterion-specific arguments: on one and the
same store and one and the same criterion argument `"category"`, two runs
that differ only in what the user types at the prompt return different
results, so the result is not a function of the store and the call
arguments alone. -/
theorem filter_products_reads_console :
    (ShoppingList.filter_products ⟨[pMilk, pBread], []⟩ "category" ["Dairy"]).2
      = .ok [pMilk] ∧
    (ShoppingList.filter_products ⟨[pMilk, pBread], []⟩ "category" ["Bakery"]).2
      = .ok [pBread] ∧
    (ShoppingList.filter_products ⟨[pMilk, pBread], []⟩ "category" ["Dairy"]).2
      ≠ (ShoppingList.filter_products ⟨[pMilk, pBread], []⟩ "category" ["Bakery"]).2 := by
  have h1 : (ShoppingList.filter_products ⟨[pMilk, pBread], []⟩ "category" ["Dairy"]).2
      = .ok [pMilk] := rfl
  have h2 : (ShoppingList.filter_products ⟨[pMilk, pBread], []⟩ "category" ["Bakery"]).2
      = .ok [pBread] := rfl
  refine ⟨h1, h2, ?_⟩
  intro h
  rw [h1, h2] at h
  simp [pMilk, pBread] at h

/-- C6: the `"bought"` and `"not bought"` criteria partition `products`
exactly — no console input consumed, the store returned untouched, the two
results disjoint, their multiset union the whole product list, and each
result a sublist (order-preserving subsequence) of `products`. -/
theorem filter_bought_partition (l : ShoppingList) (stdin : List String) :
    l.filter_products "bought" stdin
      = (l, .ok (l.products.filter fun p => p.bought)) ∧
    l.filter_products "not bought" stdin
      = (l, .ok (l.products.filter fun p => !p.bought)) ∧
    ((l.products.filter fun p => p.bought)
      ++ (l.products.filter fun p => !p.bought)).Perm l.products ∧
    (∀ p, p ∈ (l.products.filter fun p => p.bought) →
      p ∉ (l.products.filter fun p => !p.bought)) ∧
    (l.products.filter fun p => p.bought).Sublist l.products ∧
    (l.products.filter fun p => !p.bought).Sublist l.products := by
  refine ⟨rfl, rfl, List.filter_append_perm _ _, ?_, List.filter_sublist _,
    List.filter_sublist _⟩
  intro p hp hnp
  have h1 := (List.mem_filter.mp hp).2
  have h2 := (List.mem_filter.mp hnp).2
  rw [h1] at h2
  exact Bool.noConfusion h2

/-- Sum over the bought records equals the sum of per-record contributions
that count unbought records as zero. -/
theorem sum_filter_bought (ps : List Product) :
    ((ps.filter fun p => p.bought).map (fun p => p.price * (p.quantity : ℚ))).sum
      = (ps.map fun p => if p.bought then p.price * (p.quantity : ℚ) else 0).sum := by
  induction ps with
  | nil => rfl
  | cons x xs ih =>
    by_cases hx : x.bought <;> simp [List.filter_cons, hx, ih]

/-- C7: `generate_statistics` returns `total_spent` equal to the sum of
`price * quantity` over the bought records, `average_spent` equal to
`total_spent` divided by the count of ALL products when there are any and
`0` otherwise, and on an empty store (empty products, empty history) the
triple `(0, 0, none)`. -/
theorem generate_statistics_spec (l : ShoppingList) :
    (l.generate_statistics).total_spent
      = (l.products.map fun p => if p.bought then p.price * (p.quantity : ℚ) else 0).sum ∧
    (l.generate_statistics).average_spent
      = (if l.products.length = 0 then 0
          else (l.generate_statistics).total_spent / (l.products.length : ℚ)) ∧
    ShoppingList.init.generate_statistics = ⟨0, 0, none⟩ := by
  refine ⟨sum_filter_bought l.products, ?_, rfl⟩
  show (if l.products.isEmpty then 0 else _) = _
  cases h : l.products with
  | nil => simp [h]
  | cons x xs => simp [ShoppingList.generate_statistics, h]

/-- Serialize-then-deserialize is the identity on a record list. -/
theorem roundtrip_map (ps : List Product) :
    (ps.map Product.toDict).map Product.ofDict = ps := by
  induction ps with
  | nil => rfl
  | cons x xs ih => simp [ih, Product.toDict, Product.ofDict]

/-- C8: writing a non-empty product list to file and reading it back
restores `products` field-for-field in the original order. -/
theorem write_read_roundtrip (l : ShoppingList) (hne : l.products ≠ []) :
    (l.read_from_file l.write_to_file).products = l.products :=
  roundtrip_map l.products

/-- Witness for C8 on a concrete two-product store. -/
theorem write_read_roundtrip_witness :
    ([pMilk, pBread] : List Product) ≠ [] ∧
    ((ShoppingList.mk [pMilk, pBread] []).read_from_file
      (ShoppingList.mk [pMilk, pBread] []).write_to_file).products = [pMilk, pBread] :=
  ⟨by decide, write_read_roundtrip ⟨[pMilk, pBread], []⟩ (by decide)⟩

end ShoppingListApp
